import Mathlib

set_option maxRecDepth 8192

/-!
Shallow embedding of the PromptLab model-invocation layer
(`src/hooks/useModel.ts`): JavaScript string helpers, a JSON value type with
the key-path extractor `get`, the request-template substitution, model
resolution, outbound headers, the returned result shape of one render, and an
event-step machine for the dispatch / streaming / staleness logic of the
`useEffect` block.  JavaScript strings are modelled over `List Char`
(code points), numbers as exact decimals `m * 10 ^ e`, and the
single-threaded event loop as an explicit list of events folded over a state.
-/

namespace PromptLab

/-- The double-quote character. -/
def qChar : Char := Char.ofNat 34

/-- The backslash character. -/
def bsChar : Char := Char.ofNat 92

/-- Left curly brace. -/
def lbrace : Char := Char.ofNat 123

/-- Right curly brace. -/
def rbrace : Char := Char.ofNat 125

/-- Backtick character. -/
def btickChar : Char := Char.ofNat 96

/-- Apostrophe character. -/
def aposChar : Char := Char.ofNat 39

/-- Whether `pat` is a leading segment of `s`. -/
def leadsWith : List Char → List Char → Bool
  | [], _ => true
  | _ :: _, [] => false
  | p :: ps, c :: cs => p == c && leadsWith ps cs

/-- Index of the leftmost occurrence of `pat` in `s` (JS `String.indexOf`);
the empty pattern matches at index 0. -/
def firstIdx (pat : List Char) : List Char → Option Nat
  | [] => if leadsWith pat [] then some 0 else none
  | c :: t => if leadsWith pat (c :: t) then some 0 else (firstIdx pat t).map (· + 1)

/-- JS `s.includes(sub)`. -/
def jsIncludes (s sub : String) : Bool := (firstIdx sub.toList s.toList).isSome

/-- JS replacement-pattern expansion for a string pattern: in the replacement
text, dollar-dollar is a literal dollar, dollar-ampersand the matched text,
dollar-backtick the text before the match and dollar-apostrophe the text
after it. -/
def expandDollar (matched before after : List Char) : List Char → List Char
  | [] => []
  | [c] => [c]
  | c :: d :: rest =>
    if c == '$' then
      if d == '$' then '$' :: expandDollar matched before after rest
      else if d == '&' then matched ++ expandDollar matched before after rest
      else if d == btickChar then before ++ expandDollar matched before after rest
      else if d == aposChar then after ++ expandDollar matched before after rest
      else '$' :: expandDollar matched before after (d :: rest)
    else c :: expandDollar matched before after (d :: rest)

/-- JS `s.replace(pat, repl)` with a string pattern: replaces only the FIRST
occurrence, applying replacement-pattern expansion. -/
def replaceFirst (s pat repl : String) : String :=
  match firstIdx pat.toList s.toList with
  | none => s
  | some n =>
    let sc := s.toList
    let before := sc.take n
    let after := sc.drop (n + pat.toList.length)
    String.mk (before ++ expandDollar pat.toList before after repl.toList ++ after)

/-- ASCII model of the JS regex class `[\n\r\s]`. -/
def jsWhitespaceChar (c : Char) : Bool :=
  c == ' ' || c == '\t' || c == '\n' || c == '\r' || c == '\x0b' || c == '\x0c'

/-- Collapse maximal whitespace runs to one space; the flag records whether
the previous character was part of a run. -/
def collapseGo : Bool → List Char → List Char
  | _, [] => []
  | prevWs, c :: rest =>
    if jsWhitespaceChar c then
      if prevWs then collapseGo true rest else ' ' :: collapseGo true rest
    else c :: collapseGo false rest

/-- JS `.replaceAll(/[\n\r\s]+/g, " ")`. -/
def collapseWs (s : String) : String := String.mk (collapseGo false s.toList)

/-- The two-character string backslash-quote. -/
def escQuote : String := String.mk [bsChar, qChar]

/-- One double-quote character as a string. -/
def quoteStr : String := String.mk [qChar]

/-- Replace every non-overlapping occurrence of a non-empty pattern, left to
right (fuel-indexed so that it evaluates in the kernel). -/
def replaceAllGo (patc replc : List Char) : Nat → List Char → List Char
  | 0, cs => cs
  | _ + 1, [] => []
  | fuel + 1, c :: cs =>
    if leadsWith patc (c :: cs) then
      replc ++ replaceAllGo patc replc fuel ((c :: cs).drop patc.length)
    else c :: replaceAllGo patc replc fuel cs

/-- JS `s.replaceAll(pat, repl)` for a non-empty string pattern whose
replacement carries no dollar patterns (the only uses in the source). -/
def replaceAllStr (s pat repl : String) : String :=
  String.mk (replaceAllGo pat.toList repl.toList (s.length + 1) s.toList)

/-- JS `.replaceAll(Char 34, backslash-quote)`: escape embedded quotes. -/
def escapeQuotes (s : String) : String := replaceAllStr s quoteStr escQuote

/-- The sanitization applied to every prompt fragment in the source
(lines 131, 136, 142): collapse whitespace runs, then escape quotes. -/
def sanitize (s : String) : String := escapeQuotes (collapseWs s)

/-- JS `.trim()` (ASCII whitespace modelled). -/
def jsTrim (s : String) : String :=
  String.mk (((s.toList.dropWhile jsWhitespaceChar).reverse.dropWhile jsWhitespaceChar).reverse)

/-- JS `s.split(sep)` for a one-character separator, keeping empty parts. -/
def splitOnChar (sep : Char) : List Char → List String
  | [] => [""]
  | c :: rest =>
    if c == sep then ("") :: splitOnChar sep rest
    else
      match splitOnChar sep rest with
      | [] => [String.mk [c]]
      | h :: t => (String.mk [c] ++ h) :: t

/-- JS `s.substring(n)` (drop the first `n` code points). -/
def strDrop (s : String) (n : Nat) : String := String.mk (s.toList.drop n)

/-- Decimal digits of a natural number (fuel-indexed). -/
def natDigitsGo : Nat → Nat → List Char
  | 0, _ => []
  | fuel + 1, n =>
    if n < 10 then [Char.ofNat (48 + n)]
    else natDigitsGo fuel (n / 10) ++ [Char.ofNat (48 + n % 10)]

/-- Decimal rendering of a natural number. -/
def natToStr (n : Nat) : String := String.mk (natDigitsGo (n + 1) n)

/-- Decimal rendering of an integer. -/
def intToStr (m : Int) : String :=
  if m < 0 then String.mk ['-'] ++ natToStr m.natAbs else natToStr m.natAbs

/-- Value of a run of decimal digits. -/
def digitsVal (ds : List Char) : Nat := ds.foldl (fun n c => n * 10 + (c.toNat - 48)) 0

/-- Decoded JSON values; numbers are exact decimals `m * 10 ^ e`. -/
inductive Jval where
  | null
  | bool (b : Bool)
  | num (m : Int) (e : Int)
  | str (s : String)
  | arr (elems : List Jval)
  | obj (fields : List (String × Jval))

/-- Whether the value is JSON `null`. -/
def Jval.isNull : Jval → Bool
  | .null => true
  | _ => false

/-- JS `typeof v == "object"` on a decoded JSON value: true exactly for
objects, arrays and `null`. -/
def jsTypeofObject : Jval → Bool
  | .null => true
  | .arr _ => true
  | .obj _ => true
  | _ => false

/-- JS falsiness of a defined value: `null`, `false`, `0` and the empty
string are falsy. -/
def falsyV : Jval → Bool
  | .null => true
  | .bool b => !b
  | .num m _ => m == 0
  | .str s => s == ""
  | _ => false

/-- JS falsiness with `none` standing for `undefined`. -/
def falsyOpt : Option Jval → Bool
  | none => true
  | some v => falsyV v

/-- Object member lookup (parse keeps keys unique, see `objInsert`). -/
def jsLookup (fields : List (String × Jval)) (k : String) : Option Jval :=
  (fields.find? (fun p => p.1 == k)).map (fun p => p.2)

/-- A canonical array/string index: the key is the decimal rendering of `n`. -/
def canonIdx (k : String) : Option Nat :=
  let cs := k.toList
  if cs.isEmpty || !(cs.all Char.isDigit) then none
  else
    let n := digitsVal cs
    if natToStr n == k then some n else none

/-- The string `length`. -/
def lengthKey : String := "length"

/-- JS member access `v[k]` on a non-null value: objects by key, arrays and
strings by canonical index or `length`; other primitives have no members. -/
def jsAccessOk : Jval → String → Option Jval
  | .obj fields, k => jsLookup fields k
  | .arr xs, k =>
    if k == lengthKey then some (.num (xs.length : Int) 0)
    else
      match canonIdx k with
      | some n => xs.get? n
      | none => none
  | .str s, k =>
    if k == lengthKey then some (.num (s.length : Int) 0)
    else
      match canonIdx k with
      | some n => (s.toList.get? n).map (fun c => .str (String.mk [c]))
      | none => none
  | _, _ => none

/-- JS member access `v[k]`; reading a property of `null` throws a
`TypeError`, modelled as `.error ()`. -/
def jsAccess (v : Jval) (k : String) : Except Unit (Option Jval) :=
  if v.isNull then .error () else .ok (jsAccessOk v k)

/-- Greedy match of the source's bracket regex: given the characters after a
`[`, the match ends at the LAST `]` inside the maximal run of
non-right-brace characters, provided at least one character is captured
(the class in the source is "not right brace", not "not right bracket"). -/
def bracketEnd (cs : List Char) : Option Nat :=
  let run := cs.takeWhile (fun c => !(c == rbrace))
  ((List.range run.length).filter (fun k => 1 ≤ k && run.get? k == some ']')).getLast?

/-- JS `item.split(regex-with-capture)`: alternating non-matched parts and
captured groups, as produced for the source's `\[([^}]+)\]` splitter
(fuel-indexed so that it evaluates in the kernel). -/
def bracketSplitGo : Nat → List Char → List Char → List String
  | 0, acc, cs => [String.mk (acc.reverse ++ cs)]
  | _ + 1, acc, [] => [String.mk acc.reverse]
  | fuel + 1, acc, c :: rest =>
    if c == '[' then
      match bracketEnd rest with
      | some k =>
        String.mk acc.reverse :: String.mk (rest.take k) ::
          bracketSplitGo fuel [] (rest.drop (k + 1))
      | none => bracketSplitGo fuel (c :: acc) rest
    else bracketSplitGo fuel (c :: acc) rest

/-- Run the bracket splitter with enough fuel. -/
def bracketSplit (cs : List Char) : List String := bracketSplitGo (cs.length + 1) [] cs

/-- The key-path splitter of `get` (source lines 85–97): trim, split on dots,
split each item on the bracket regex keeping captures, drop empty keys. -/
def parsePath (pathString : String) : List String :=
  (((jsTrim pathString).toList |> splitOnChar '.').map
    (fun item => (bracketSplit item.toList).filter (fun k => !(k.length == 0)))).flatten

/-- The walk loop of `get` (source lines 101–104): each step is guarded by a
truthiness test; a falsy or missing member returns the default. -/
def getLoop : Jval → List String → Option String → Except Unit (Option Jval)
  | cur, [], _ => .ok (some cur)
  | cur, k :: rest, d =>
    match jsAccess cur k with
    | .error e => .error e
    | .ok none => .ok (d.map .str)
    | .ok (some u) => if falsyV u then .ok (d.map .str) else getLoop u rest d

/-- The key-path extractor `get` (source lines 84–107): the typeof test is
made ONCE on the root; a non-object root is returned unchanged. -/
def get (root : Jval) (pathString : String) (d : Option String) : Except Unit (Option Jval) :=
  if jsTypeofObject root then getLoop root (parsePath pathString) d
  else .ok (some root)

/-- Whether the extractor threw. -/
def isThrow : Except Unit (Option Jval) → Bool
  | .error _ => true
  | .ok _ => false

/-- The string holding one comma. -/
def commaStr : String := String.mk [',']

/-- Join strings with a separator. -/
def joinSep (sep : String) : List String → String
  | [] => ""
  | [s] => s
  | s :: rest => s ++ sep ++ joinSep sep rest

mutual

/-- JS `.toString()` coercion of a decoded JSON value (object form is the
generic object tag; array elements join on commas with null as empty). -/
def jsToString : Jval → String
  | .null => "null"
  | .bool b => if b then ("true") else ("false")
  | .num m e => if e == 0 then intToStr m else intToStr m ++ String.mk ['e'] ++ intToStr e
  | .str s => s
  | .arr xs => joinSep commaStr (jsElems xs)
  | .obj _ => "[object Object]"

/-- Array element strings for the JS array `.toString()`. -/
def jsElems : List Jval → List String
  | [] => []
  | .null :: rest => "" :: jsElems rest
  | v :: rest => jsToString v :: jsElems rest

end

/-- The merge step of the stream accumulator (source lines 204–209): if the
new fragment contains the accumulated text, replace; otherwise append. -/
def accumulate (text : String) (output : Jval) : String :=
  let os := jsToString output
  if jsIncludes os text then os else text ++ os

/-- JSON insignificant whitespace. -/
def isJsonWs (c : Char) : Bool := c == ' ' || c == '\t' || c == '\n' || c == '\r'

/-- Drop leading JSON whitespace. -/
def skipWs (cs : List Char) : List Char := cs.dropWhile isJsonWs

/-- Parse-error message for truncated input. -/
def errEnd : String := "unexpected end of JSON input"

/-- Parse-error message for a malformed token. -/
def errTok : String := "unexpected token in JSON"

/-- Hexadecimal digit value. -/
def hexVal (c : Char) : Option Nat :=
  if c.isDigit then some (c.toNat - 48)
  else if 'a' ≤ c && c ≤ 'f' then some (c.toNat - 87)
  else if 'A' ≤ c && c ≤ 'F' then some (c.toNat - 70)
  else none

/-- Four hex digits of a unicode escape. -/
def parseHex4 : List Char → Option (Nat × List Char)
  | a :: b :: c :: d :: rest =>
    match hexVal a, hexVal b, hexVal c, hexVal d with
    | some x, some y, some z, some w => some (((x * 16 + y) * 16 + z) * 16 + w, rest)
    | _, _, _, _ => none
  | _ => none

/-- JSON string body after the opening quote (escapes handled; a unicode
escape is taken as its raw code point). -/
def parseStrBody : Nat → List Char → List Char → Except String (String × List Char)
  | 0, _, _ => .error errEnd
  | _ + 1, _, [] => .error errEnd
  | fuel + 1, acc, c :: rest =>
    if c == qChar then .ok (String.mk acc.reverse, rest)
    else if c == bsChar then
      match rest with
      | [] => .error errEnd
      | e :: rest' =>
        if e == qChar then parseStrBody fuel (qChar :: acc) rest'
        else if e == bsChar then parseStrBody fuel (bsChar :: acc) rest'
        else if e == '/' then parseStrBody fuel ('/' :: acc) rest'
        else if e == 'b' then parseStrBody fuel ('\x08' :: acc) rest'
        else if e == 'f' then parseStrBody fuel ('\x0c' :: acc) rest'
        else if e == 'n' then parseStrBody fuel ('\n' :: acc) rest'
        else if e == 'r' then parseStrBody fuel ('\r' :: acc) rest'
        else if e == 't' then parseStrBody fuel ('\t' :: acc) rest'
        else if e == 'u' then
          match parseHex4 rest' with
          | some (n, rest2) => parseStrBody fuel (Char.ofNat n :: acc) rest2
          | none => .error errTok
        else .error errTok
    else if c.toNat < 32 then .error errTok
    else parseStrBody fuel (c :: acc) rest

/-- Optional JSON exponent part, returning its signed value. -/
def parseExpPart (cs : List Char) : Except String (Int × List Char) :=
  match cs with
  | c :: rest =>
    if c == 'e' || c == 'E' then
      let signed : Int × List Char :=
        match rest with
        | d :: r2 => if d == '+' then (1, r2) else if d == '-' then (-1, r2) else (1, rest)
        | [] => (1, rest)
      let eds := signed.2.takeWhile Char.isDigit
      if eds.length == 0 then .error errTok
      else .ok (signed.1 * (digitsVal eds : Int), signed.2.drop eds.length)
    else .ok (0, cs)
  | [] => .ok (0, cs)

/-- JSON number: optional minus, integer part without leading zeros, optional
fraction, optional exponent; the result is the exact decimal `m * 10 ^ e`. -/
def parseNum (cs : List Char) : Except String (Jval × List Char) :=
  let signed : Bool × List Char :=
    match cs with
    | c :: r => if c == '-' then (true, r) else (false, cs)
    | [] => (false, cs)
  let intDs := signed.2.takeWhile Char.isDigit
  let cs2 := signed.2.drop intDs.length
  if intDs.length == 0 then .error errTok
  else if intDs.length > 1 && intDs.get? 0 == some '0' then .error errTok
  else
    let frac : List Char × List Char :=
      match cs2 with
      | c :: r => if c == '.' then (r.takeWhile Char.isDigit, (r.takeWhile Char.isDigit).length |> r.drop) else ([], cs2)
      | [] => ([], cs2)
    let hadDot : Bool := match cs2 with | c :: _ => c == '.' | [] => false
    if hadDot && frac.1.length == 0 then .error errTok
    else
      match parseExpPart frac.2 with
      | .error e => .error e
      | .ok (expV, cs3) =>
        let mAbs : Int := (digitsVal intDs : Int) * (10 : Int) ^ frac.1.length + (digitsVal frac.1 : Int)
        let m : Int := if signed.1 then -mAbs else mAbs
        .ok (.num m (expV - (frac.1.length : Int)), cs3)

/-- Literal `true`. -/
def trueLit : List Char := ['t', 'r', 'u', 'e']

/-- Literal `false`. -/
def falseLit : List Char := ['f', 'a', 'l', 's', 'e']

/-- Literal `null`. -/
def nullLit : List Char := ['n', 'u', 'l', 'l']

/-- Insert a member, overwriting an existing key (JS duplicate-key rule). -/
def objInsert (fields : List (String × Jval)) (k : String) (v : Jval) : List (String × Jval) :=
  if fields.any (fun p => p.1 == k) then fields.map (fun p => if p.1 == k then (k, v) else p)
  else fields ++ [(k, v)]

mutual

/-- Recursive-descent JSON value parser (fuel-indexed). -/
def parseVal : Nat → List Char → Except String (Jval × List Char)
  | 0, _ => .error errEnd
  | fuel + 1, cs =>
    match skipWs cs with
    | [] => .error errEnd
    | c :: rest =>
      if c == qChar then
        match parseStrBody fuel [] rest with
        | .error e => .error e
        | .ok (s, r) => .ok (.str s, r)
      else if c == lbrace then parseObjRest fuel true rest []
      else if c == '[' then parseArrRest fuel true rest []
      else if leadsWith trueLit (c :: rest) then .ok (.bool true, (c :: rest).drop 4)
      else if leadsWith falseLit (c :: rest) then .ok (.bool false, (c :: rest).drop 5)
      else if leadsWith nullLit (c :: rest) then .ok (.null, (c :: rest).drop 4)
      else parseNum (c :: rest)

/-- Array items after `[` or after a comma. -/
def parseArrRest : Nat → Bool → List Char → List Jval → Except String (Jval × List Char)
  | 0, _, _, _ => .error errEnd
  | _ + 1, _, [], _ => .error errEnd
  | fuel + 1, isFirst, cs, acc =>
    match skipWs cs with
    | [] => .error errEnd
    | c :: rest =>
      if isFirst && c == ']' then .ok (.arr acc.reverse, rest)
      else
        match parseVal fuel (c :: rest) with
        | .error e => .error e
        | .ok (v, cs2) =>
          match skipWs cs2 with
          | ',' :: cs3 => parseArrRest fuel false cs3 (v :: acc)
          | ']' :: cs3 => .ok (.arr (v :: acc).reverse, cs3)
          | _ => .error errTok

/-- Object members after the opening brace or after a comma. -/
def parseObjRest : Nat → Bool → List Char → List (String × Jval) → Except String (Jval × List Char)
  | 0, _, _, _ => .error errEnd
  | _ + 1, _, [], _ => .error errEnd
  | fuel + 1, isFirst, cs, acc =>
    match skipWs cs with
    | [] => .error errEnd
    | c :: rest =>
      if isFirst && c == rbrace then .ok (.obj acc, rest)
      else if c == qChar then
        match parseStrBody fuel [] rest with
        | .error e => .error e
        | .ok (k, cs2) =>
          match skipWs cs2 with
          | ':' :: cs3 =>
            match parseVal fuel cs3 with
            | .error e => .error e
            | .ok (v, cs4) =>
              match skipWs cs4 with
              | ',' :: cs5 => parseObjRest fuel false cs5 (objInsert acc k v)
              | r :: cs5 => if r == rbrace then .ok (.obj (objInsert acc k v), cs5) else .error errTok
              | [] => .error errEnd
          | _ => .error errTok
      else .error errTok

end

/-- Model of `JSON.parse` over the decoded value type (decimal-exact numbers). -/
def jsonParse (s : String) : Except String Jval :=
  match parseVal (2 * s.length + 4) s.toList with
  | .error e => .error e
  | .ok (v, rest) => if (skipWs rest).isEmpty then .ok v else .error errTok

/-- A backend configuration record (`Model` in `src/utils/types.ts`, fields
as used by `useModel`). -/
structure Model where
  endpoint : String
  authType : String
  apiKey : String
  inputSchema : String
  outputKeyPath : String
  outputTiming : String
  lengthLimit : String
  temperature : String
  name : String
  description : String
  favorited : Bool
  id : String
  icon : String
  iconColor : String
  notes : String
  isDefault : Bool
deriving Repr, DecidableEq

/-- The extension preferences consumed by `useModel`; `promptPre` and
`promptSuf` stand for the prompt prefix/suffix preference strings. -/
structure ExtensionPreferences where
  modelEndpoint : String
  authType : String
  apiKey : String
  inputSchema : String
  outputKeyPath : String
  outputTiming : String
  lengthLimit : String
  promptPre : String
  promptSuf : String
  includeTemperature : Bool
deriving Repr, DecidableEq

/-- The hardcoded managed-service fallback Model (source lines 33–50). -/
def fallbackModel : Model :=
  { endpoint := "Raycast AI"
    authType := ""
    apiKey := ""
    inputSchema := ""
    outputKeyPath := ""
    outputTiming := "async"
    lengthLimit := "2500"
    temperature := "1.0"
    name := "Text-Davinci-003 Via Raycast AI"
    description := ""
    favorited := false
    id := ""
    icon := ""
    iconColor := ""
    notes := ""
    isDefault := false }

/-- The environment-preference Model (source lines 51–68). -/
def preferenceModel (prefs : ExtensionPreferences) : Model :=
  { endpoint := prefs.modelEndpoint
    authType := prefs.authType
    apiKey := prefs.apiKey
    inputSchema := prefs.inputSchema
    outputKeyPath := prefs.outputKeyPath
    outputTiming := prefs.outputTiming
    lengthLimit := prefs.lengthLimit
    temperature := "1.0"
    name := ""
    description := ""
    favorited := false
    id := ""
    icon := ""
    iconColor := ""
    notes := ""
    isDefault := false }

/-- Accepted spellings of the managed service (source line 32). -/
def validRaycastAIReps : List String :=
  ["raycast ai", "raycastai", "raycast", "raycast-ai", "raycast ai 3.5"]

/-- The registry's current default Model (source line 69). -/
def findDefaultModel (models : List Model) : Option Model :=
  models.find? (fun m => m.isDefault)

/-- The resolver `targetModel` (source lines 70–71): explicit override, else
registry default, else the preference Model when its endpoint is non-empty,
else the hardcoded fallback.  JS `||` on Model objects is `Option.getD`
since objects are always truthy. -/
def targetModelFrom (override : Option Model) (models : List Model)
    (prefs : ExtensionPreferences) : Model :=
  override.getD ((findDefaultModel models).getD
    (if (preferenceModel prefs).endpoint == "" then fallbackModel else preferenceModel prefs))

/-- Lower-case a string (JS `.toLowerCase()`, ASCII). -/
def jsToLower (s : String) : String := String.mk (s.toList.map Char.toLower)

/-- The `raycastModel` classification (source lines 72–75). -/
def raycastFlag (m : Model) (modelsLoading : Bool) (hasOverride : Bool)
    (prefs : ExtensionPreferences) : Bool :=
  validRaycastAIReps.contains (jsToLower m.endpoint) || m.endpoint == "" ||
    (modelsLoading && !hasOverride && prefs.modelEndpoint == "")

/-- The literal header name `method` that the source places INSIDE the
headers record (line 111), in addition to the real request method option. -/
def methodKey : String := "method"

/-- The value `POST`. -/
def postVal : String := "POST"

/-- The header name `Content-Type`. -/
def ctKey : String := "Content-Type"

/-- The value `application/json`. -/
def ctVal : String := "application/json"

/-- The header name `Authorization`. -/
def authKey : String := "Authorization"

/-- The header name `X-API-Key`. -/
def xApiKeyKey : String := "X-API-Key"

/-- The scheme `Api-Key ` with trailing space. -/
def apiKeyPre : String := "Api-Key "

/-- The scheme `Bearer ` with trailing space. -/
def bearerPre : String := "Bearer "

/-- The outbound headers record (source lines 110–122), in insertion order:
the base object holds a `method: POST` entry and `Content-Type`, then at
most one authorization entry derived from `authType`/`apiKey`. -/
def headersFor (m : Model) : List (String × String) :=
  [(methodKey, postVal), (ctKey, ctVal)] ++
    (if m.authType == "apiKey" then [(authKey, apiKeyPre ++ jsTrim m.apiKey)]
     else if m.authType == "bearerToken" then [(authKey, bearerPre ++ jsTrim m.apiKey)]
     else if m.authType == "x-api-key" then [(xApiKeyKey, jsTrim m.apiKey)]
     else [])

/-- The placeholder token left-brace `prompt` right-brace. -/
def pTok : String := "\x7bprompt\x7d"

/-- The placeholder head left-brace `prompt` (no closing brace), used by the
special-case test of source line 140. -/
def pHead : String := "\x7bprompt"

/-- The placeholder token for the base prompt. -/
def bTok : String := "\x7bbasePrompt\x7d"

/-- The placeholder token for the input. -/
def iTok : String := "\x7binput\x7d"

/-- The template substitution applied to `inputSchema` (source lines
126–144), written exactly as the source chains it: `.replace` (first
occurrence only) of the prompt, base-prompt and input placeholders, with the
sanitization and the wrapping prefix/suffix inlined. -/
def substitutedSchema (schema : String) (prefs : ExtensionPreferences)
    (bp p i : String) : String :=
  replaceFirst
    (replaceFirst
      (replaceFirst schema pTok
        (prefs.promptPre ++
          replaceAllStr (String.mk (collapseGo false p.toList)) quoteStr escQuote ++
          prefs.promptSuf))
      bTok
      (prefs.promptPre ++
        replaceAllStr (String.mk (collapseGo false bp.toList)) quoteStr escQuote))
    iTok
    (if jsIncludes schema pHead && p == i then ("")
     else replaceAllStr (String.mk (collapseGo false i.toList)) quoteStr escQuote ++
       prefs.promptSuf)

/-- The `prompt` fragment as the spec describes it: sanitized and wrapped
with the configured prefix and suffix. -/
def wrapPromptFragment (prefs : ExtensionPreferences) (p : String) : String :=
  prefs.promptPre ++ sanitize p ++ prefs.promptSuf

/-- The `basePrompt` fragment: sanitized, with the prefix only. -/
def wrapBaseFragment (prefs : ExtensionPreferences) (bp : String) : String :=
  prefs.promptPre ++ sanitize bp

/-- The `input` fragment: empty when the template mentions a prompt
placeholder and the prompt IS the input, else sanitized with the suffix. -/
def inputFragment (schema : String) (prefs : ExtensionPreferences)
    (p i : String) : String :=
  if jsIncludes schema pHead && p == i then ("") else sanitize i ++ prefs.promptSuf

/-- Specification-style statement of the (amended) substitution: the first
occurrence of each placeholder, in the order prompt, base prompt, input, is
replaced by its fragment. -/
def schemaSubstitutionSpec (schema : String) (prefs : ExtensionPreferences)
    (bp p i : String) : String :=
  replaceFirst
    (replaceFirst (replaceFirst schema pTok (wrapPromptFragment prefs p))
      bTok (wrapBaseFragment prefs bp))
    iTok (inputFragment schema prefs p i)

/-- The parsed request template `modelSchema` (source lines 124–144): the
managed-service path uses an empty object, otherwise the substituted
template is fed to `JSON.parse` with NO surrounding try/catch, so a parse
failure is a thrown exception (`.error`). -/
def modelSchemaE (ray : Bool) (m : Model) (prefs : ExtensionPreferences)
    (bp p i : String) : Except String Jval :=
  if ray then .ok (.obj []) else jsonParse (substitutedSchema m.inputSchema prefs bp p i)

/-- The caller-visible result shape (`data`/`isLoading`/`error`/`dataTag`;
the function-valued `revalidate`/`stopModel` fields carry no data). -/
structure HookResult where
  data : String
  isLoading : Bool
  error : Option String
  dataTag : String
deriving Repr, DecidableEq

/-- The React state cells read by the return branches. -/
structure RState where
  data : String
  error : Option String
  dataTag : String
  isLoading : Bool
deriving Repr, DecidableEq

/-- The terminal error text for an empty prompt (source line 257). -/
def emptyPromptErr : String := "Prompt cannot be empty"

/-- The terminal error text for an invalid endpoint (source line 287). -/
def invalidEndpointErr : String := "Invalid Endpoint"

/-- The string holding one colon. -/
def colonStr : String := String.mk [':']

/-- The returned result of one render (source lines 236–288): empty-prompt
guard first, then the managed-service / registry-loading branch, then the
URL branch keyed on a colon in the endpoint, else the invalid-endpoint
error.  `aiRes` is the opaque managed-service hook result and `canAccess`
the environment capability gate. -/
def renderResult (bp p i : String) (m : Model) (modelsLoading canAccess : Bool)
    (aiRes : HookResult) (st : RState) : HookResult :=
  let res : HookResult :=
    if canAccess then { aiRes with dataTag := bp ++ p ++ i }
    else { data := st.data, isLoading := true, error := st.error, dataTag := st.dataTag }
  if bp.length == 0 && p.length == 0 then
    { data := "", isLoading := false, error := some emptyPromptErr, dataTag := "" }
  else if validRaycastAIReps.contains (jsToLower m.endpoint) || modelsLoading then
    if modelsLoading then
      { data := "", isLoading := true, error := none, dataTag := bp ++ p ++ i }
    else res
  else if jsIncludes m.endpoint colonStr then
    { data := st.data, isLoading := st.isLoading, error := st.error, dataTag := st.dataTag }
  else { data := "", isLoading := false, error := some invalidEndpointErr, dataTag := "" }

/-- One render of the hook body: the template is evaluated (source line 126)
before any of the return branches run, so a malformed substituted template
makes the whole call throw instead of returning a result shape. -/
def renderOutcome (bp p i : String) (override : Option Model) (models : List Model)
    (modelsLoading : Bool) (prefs : ExtensionPreferences) (canAccess : Bool)
    (aiRes : HookResult) (st : RState) : Except String HookResult :=
  let m := targetModelFrom override models prefs
  let ray := raycastFlag m modelsLoading override.isSome prefs
  match modelSchemaE ray m prefs bp p i with
  | .error e => .error e
  | .ok _ => .ok (renderResult bp p i m modelsLoading canAccess aiRes st)

/-- Fixed per-scenario configuration of the effect machine: the
`raycastModel` classification, the Model's `outputKeyPath` and its
`outputTiming`. -/
structure MCfg where
  raycast : Bool
  keyPath : String
  timing : String
deriving Repr, DecidableEq

/-- A then/finally pair attached to the fetch promise by one effect run:
`meTag` is the dispatch tag captured from the ref (`const me = AIRef.current`,
line 186) and `closureTag` is `basePrompt + prompt + input` of the render
whose effect attached the pair (its closure). -/
structure Cl where
  meTag : String
  closureTag : String
deriving Repr, DecidableEq

/-- A `data`-event handler installed by one then-run (source line 196), with
its accumulated local `text`. -/
structure StreamHandler where
  meTag : String
  closureTag : String
  text : String
deriving Repr, DecidableEq

/-- The machine state: React state cells (`data`, `isLoading`, `dataTag`,
updates modelled as immediate), the mutable ref (`aiRef` holds the dispatch
tag of the in-flight fetch), the then/finally pairs not yet run
(`pending`, the fetch unresolved), the installed stream handlers, the
resolution status of the fetch, and whether a best-effort close of the
connection was requested (`forceStop` / `stopModel`). -/
structure MState where
  data : String
  isLoading : Bool
  dataTag : String
  aiRef : Option String
  pending : List Cl
  handlers : List StreamHandler
  resolvedOk : Option Bool
  closed : Bool
deriving Repr, DecidableEq

/-- The idle initial state. -/
def initMState : MState :=
  { data := "", isLoading := false, dataTag := "", aiRef := none,
    pending := [], handlers := [], resolvedOk := none, closed := false }

/-- The string `async`. -/
def asyncStr : String := "async"

/-- The then-callback of one attached pair (source lines 187–219): on a
successful response with async timing it sets `dataTag` from its closure and
installs a stream handler.  (The sync branch parses the whole body once; the
claims here only exercise the async path, so a sync configuration installs
nothing.) -/
def thenStep (cfg : MCfg) (cl : Cl) (st : MState) : MState :=
  match st.resolvedOk with
  | some true =>
    if cfg.timing == asyncStr then
      { st with dataTag := cl.closureTag,
                handlers := st.handlers ++ [{ meTag := cl.meTag, closureTag := cl.closureTag, text := "" }] }
    else st
  | _ => st

/-- The finally-callback of one attached pair (source lines 220–226): on a
tag mismatch against ITS OWN closure it force-stops the connection and
returns; otherwise it clears `isLoading`. -/
def finallyStep (cl : Cl) (st : MState) : MState :=
  if cl.meTag == cl.closureTag then { st with isLoading := false }
  else { st with closed := true }

/-- Attaching a then/finally pair: run immediately if the fetch has already
settled (a resolved promise runs new callbacks at once), else queue it. -/
def attach (cfg : MCfg) (cl : Cl) (st : MState) : MState :=
  if st.resolvedOk.isSome then finallyStep cl (thenStep cfg cl st)
  else { st with pending := st.pending ++ [cl] }

/-- The dispatch guard of source line 154: no in-flight request, execution
enabled, non-empty prompt, not already loading. -/
def dispatchCond (p : String) (execute : Bool) (st : MState) : Bool :=
  st.aiRef.isNone && execute && !(p == "") && !st.isLoading

/-- The optional-chained attachment `AIRef.current?.fetch?.then(...)` of the
effect: nothing is attached when the ref is empty, else a pair whose `meTag`
is the ref's tag and whose `closureTag` is this render's tag. -/
def optAttach (cfg : MCfg) (tag : String) (st : MState) : MState :=
  match st.aiRef with
  | none => st
  | some t => attach cfg { meTag := t, closureTag := tag } st

/-- One run of the `useEffect` body (source lines 149–227): return early for
the managed service or when execution is disabled; otherwise possibly
dispatch the fetch (recording its tag in the ref), set `isLoading`, and
attach a then/finally pair whose `meTag` comes from the ref and whose
`closureTag` comes from this render's inputs.  The returned flag is whether
an HTTP request was issued. -/
def effectStep (cfg : MCfg) (bp p i : String) (execute : Bool) (st : MState) : MState × Bool :=
  if cfg.raycast || !execute then (st, false)
  else
    let tag := bp ++ p ++ i
    let d := dispatchCond p execute st
    let st1 := if d then { st with aiRef := some tag } else st
    (optAttach cfg tag { st1 with isLoading := true }, d)

/-- Resolution of the fetch promise: all queued then-callbacks run in attach
order, then all finally-callbacks. -/
def resolveStep (cfg : MCfg) (ok : Bool) (st : MState) : MState :=
  let l := st.pending
  let st1 := { st with resolvedOk := some ok }
  let st2 := l.foldl (fun s cl => thenStep cfg cl s) st1
  let st3 := l.foldl (fun s cl => finallyStep cl s) st2
  { st3 with pending := [] }

/-- The stream-terminator sentinel line head. -/
def donePre : String := "data: [DONE]"

/-- The data-event line head. -/
def dataPre : String := "data: "

/-- The string holding one newline. -/
def nlStr : String := String.mk ['\n']

/-- One line of a chunk processed by one handler (source lines 198–217):
skip the DONE sentinel, parse the payload of a data line (parse or
extraction failures are caught and skipped), extract via the key path with
the falsy-default empty string, merge, and write `data` only when the
handler's captured dispatch tag equals its captured closure inputs. -/
def chunkLine (keyPath : String) (h : StreamHandler) (dataCur : String)
    (line : String) : StreamHandler × String :=
  if leadsWith donePre.toList line.toList then (h, dataCur)
  else if leadsWith dataPre.toList line.toList then
    match jsonParse (strDrop line 5) with
    | .error _ => (h, dataCur)
    | .ok j =>
      match get j keyPath none with
      | .error _ => (h, dataCur)
      | .ok out =>
        let ov : Jval := match out with
          | some v => if falsyV v then .str ("") else v
          | none => .str ("")
        let text' := accumulate h.text ov
        if h.meTag == h.closureTag then ({ h with text := text' }, text')
        else ({ h with text := text' }, dataCur)
  else (h, dataCur)

/-- Arrival of one stream chunk: every installed handler receives the event
in attach order and processes the chunk's newline-split lines. -/
def chunkStep (keyPath : String) (s : String) (st : MState) : MState :=
  let start : List StreamHandler × String := ([], st.data)
  let res := st.handlers.foldl (fun acc h =>
    let fin := (splitOnChar '\n' s.toList).foldl (fun pr line => chunkLine keyPath pr.1 pr.2 line) (h, acc.2)
    (acc.1 ++ [fin.1], fin.2)) start
  { st with handlers := res.1, data := res.2 }

/-- The caller-facing `stopModel` (source lines 229–234): best-effort close
of a live connection and clearing of the ref. -/
def stopStep (st : MState) : MState :=
  { st with closed := st.closed || st.aiRef.isSome, aiRef := none }

/-- Events of the single-threaded loop: an effect run with that render's
inputs, resolution of the fetch, a stream chunk, or an explicit stop. -/
inductive Ev where
  | effect (bp p i : String) (execute : Bool)
  | resolve (ok : Bool)
  | chunk (s : String)
  | stop
deriving Repr, DecidableEq

/-- Whether the event is an explicit stop. -/
def isStopEv : Ev → Bool
  | .stop => true
  | _ => false

/-- One event step; the flag reports whether an HTTP request was issued. -/
def step (cfg : MCfg) (st : MState) : Ev → MState × Bool
  | .effect bp p i ex => effectStep cfg bp p i ex st
  | .resolve ok => (resolveStep cfg ok st, false)
  | .chunk s => (chunkStep cfg.keyPath s st, false)
  | .stop => (stopStep st, false)

/-- Fold a list of events, counting issued HTTP requests. -/
def run (cfg : MCfg) (st : MState) : List Ev → MState × Nat
  | [] => (st, 0)
  | e :: rest =>
    let p := step cfg st e
    let q := run cfg p.1 rest
    (q.1, (if p.2 then 1 else 0) + q.2)

/-! Concrete fixtures used by witnesses and counterexamples. -/

/-- Preferences with everything empty (no prefix/suffix, no endpoint). -/
def prefsW : ExtensionPreferences :=
  { modelEndpoint := "", authType := "", apiKey := "", inputSchema := "",
    outputKeyPath := "", outputTiming := "async", lengthLimit := "",
    promptPre := "", promptSuf := "", includeTemperature := false }

/-- Preferences with a visible prefix and suffix. -/
def prefsWrap : ExtensionPreferences := { prefsW with promptPre := "P:", promptSuf := ";S" }

/-- A template mentioning the prompt placeholder twice. -/
def twoPromptSchema : String := "\x7b\"a\": \"\x7bprompt\x7d\", \"b\": \"\x7bprompt\x7d\"\x7d"

/-- A template mentioning each placeholder once. -/
def threeTokSchema : String :=
  "\x7b\"a\": \"\x7bprompt\x7d\", \"b\": \"\x7bbasePrompt\x7d\", \"c\": \"\x7binput\x7d\"\x7d"

/-- An HTTP Model whose input schema is a lone open brace (not JSON). -/
def badSchemaModel : Model := { fallbackModel with endpoint := "http://x", inputSchema := "\x7b" }

/-- An opaque managed-service hook result. -/
def aiResW : HookResult := { data := "", isLoading := false, error := none, dataTag := "" }

/-- Idle React state. -/
def stW : RState := { data := "", error := none, dataTag := "", isLoading := false }

/-- A Model whose endpoint is neither the managed service nor a URL. -/
def fooModel : Model := { fallbackModel with endpoint := "foo" }

/-- The machine configuration resolved from `fooModel`. -/
def cfgFoo : MCfg :=
  { raycast := raycastFlag fooModel false false prefsW,
    keyPath := fooModel.outputKeyPath, timing := fooModel.outputTiming }

/-- Model with no authentication. -/
def mAuthNone : Model := { fallbackModel with endpoint := "http://x", authType := "" }

/-- Model with `apiKey` authentication and an untrimmed key. -/
def mAuthApi : Model :=
  { fallbackModel with endpoint := "http://x", authType := "apiKey", apiKey := " k1 " }

/-- Model with bearer-token authentication. -/
def mAuthBearer : Model :=
  { fallbackModel with endpoint := "http://x", authType := "bearerToken", apiKey := "k2" }

/-- Model with the dedicated-header authentication. -/
def mAuthX : Model :=
  { fallbackModel with endpoint := "http://x", authType := "x-api-key", apiKey := "k3" }

/-- A Model distinct from the fallback, used as an override. -/
def mOverride : Model := { fallbackModel with name := "override", endpoint := "http://o" }

/-! Helper lemmas about the key-path walk. -/

/-- A truthy value is not `null`. -/
theorem notNull_of_falsyV_false (u : Jval) (h : falsyV u = false) : u.isNull = false := by
  cases u <;> simp_all [falsyV, Jval.isNull]

/-- The walk loop never throws when started on a non-null value: every step
moves to a truthy (hence non-null) member or returns the default. -/
theorem getLoop_notThrow :
    ∀ (path : List String) (cur : Jval) (d : Option String),
      cur.isNull = false → isThrow (getLoop cur path d) = false := by
  intro path
  induction path with
  | nil => intro cur d _; rfl
  | cons k rest ih =>
    intro cur d h
    simp only [getLoop, jsAccess, h, Bool.false_eq_true, if_false]
    cases hj : jsAccessOk cur k with
    | none => rfl
    | some u =>
      by_cases hf : falsyV u = true
      · simp [hf, isThrow]
      · simp only [Bool.not_eq_true] at hf
        simp [hf, ih u d (notNull_of_falsyV_false u hf)]

/-! The claim theorems, one per claim of CLAIMS.json. -/

/-- Claim C2 (confirmed): the stream-accumulation merge rule — if the newly
extracted fragment contains the accumulated text as a substring the
accumulated text is replaced by the fragment, otherwise the fragment is
appended; in particular merging `Hello` with `Hello world` replaces, and
merging `Hello` with ` world` appends, both yielding `Hello world`. -/
theorem C2_accumulate_merge_rule :
    (∀ prev frag : String,
       accumulate prev (.str frag) = if jsIncludes frag prev then frag else prev ++ frag) ∧
    accumulate ("Hello") (.str ("Hello world")) = "Hello world" ∧
    accumulate ("Hello") (.str (" world")) = "Hello world" :=
  ⟨fun _ _ => rfl, rfl, rfl⟩

/-- Claim C3 (confirmed): the resolver selects the explicit override when
supplied; otherwise the registry's default Model when one exists; otherwise
the preference Model when its endpoint is non-empty; otherwise the hardcoded
managed-service fallback. -/
theorem C3_resolution_order :
    ∀ (ov d : Model) (ms : List Model) (prefs : ExtensionPreferences),
      targetModelFrom (some ov) ms prefs = ov ∧
      (findDefaultModel ms = some d → targetModelFrom none ms prefs = d) ∧
      (findDefaultModel ms = none → prefs.modelEndpoint ≠ "" →
        targetModelFrom none ms prefs = preferenceModel prefs) ∧
      (findDefaultModel ms = none → prefs.modelEndpoint = "" →
        targetModelFrom none ms prefs = fallbackModel) := by
  intro ov d ms prefs
  refine ⟨rfl, fun h => ?_, fun h h2 => ?_, fun h h2 => ?_⟩
  · simp [targetModelFrom, h]
  · simp [targetModelFrom, h, preferenceModel, h2]
  · simp [targetModelFrom, h, preferenceModel, h2]

/-- Witness for C3 at concrete inputs: an override wins over an empty
registry, and with no default and an empty preference endpoint the fallback
is chosen. -/
theorem C3_resolution_order_witness :
    targetModelFrom (some mOverride) [] prefsW = mOverride ∧
    targetModelFrom none [] prefsW = fallbackModel :=
  ⟨(C3_resolution_order mOverride mOverride [] prefsW).1,
   (C3_resolution_order mOverride mOverride [] prefsW).2.2.2 rfl rfl⟩

/-- Counterexample to claim C4 as stated: when the root is NOT an object the
extractor does not return the caller-supplied default — it returns the root
value itself (here the string `hello`, not the default `DEF`); moreover a
`null` root with a non-empty path throws instead of falling back. -/
theorem C4_counterexample :
    get (.str ("hello")) ("a.b") (some ("DEF")) = .ok (some (.str ("hello"))) ∧
    ("hello" : String) ≠ "DEF" ∧
    isThrow (get .null ("a") (some ("D"))) = true :=
  ⟨rfl, by decide, rfl⟩

/-- Claim C4 amended: the extractor walks the dotted/bracketed path only when
the root is object-typed, returning the default on a missing or falsy
segment; a non-object root is returned unchanged; the walk throws exactly
when the root is `null` and the parsed path is non-empty; the example path
`choices[0].text` on an object with an empty `choices` array yields the
default. -/
theorem C4_extractor_amended :
    (∀ (root : Jval) (ps : String) (d : Option String),
       jsTypeofObject root = false → get root ps d = .ok (some root)) ∧
    (∀ (root : Jval) (ps : String) (d : Option String),
       isThrow (get root ps d) = (root.isNull && !(parsePath ps).isEmpty)) ∧
    get (.obj [("choices", .arr [])]) ("choices[0].text") (some ("DEF")) =
      .ok (some (.str ("DEF"))) := by
  refine ⟨fun root ps d h => by simp [get, h], fun root ps d => ?_, rfl⟩
  cases root with
  | null =>
    cases hp : parsePath ps with
    | nil => simp [get, jsTypeofObject, hp, getLoop, isThrow, Jval.isNull]
    | cons k rest =>
      simp [get, jsTypeofObject, hp, getLoop, jsAccess, Jval.isNull, isThrow]
  | bool b => simp [get, jsTypeofObject, isThrow, Jval.isNull]
  | num m e => simp [get, jsTypeofObject, isThrow, Jval.isNull]
  | str s => simp [get, jsTypeofObject, isThrow, Jval.isNull]
  | arr xs =>
    simp only [get, jsTypeofObject, if_true, Jval.isNull, Bool.false_and]
    exact getLoop_notThrow (parsePath ps) (.arr xs) d rfl
  | obj fs =>
    simp only [get, jsTypeofObject, if_true, Jval.isNull, Bool.false_and]
    exact getLoop_notThrow (parsePath ps) (.obj fs) d rfl

/-- Witness for C4 (amended) at a concrete input: a numeric root passes
through unchanged. -/
theorem C4_extractor_amended_witness :
    get (.num 5 0) ("a") none = .ok (some (.num 5 0)) :=
  C4_extractor_amended.1 (.num 5 0) ("a") none rfl

/-- Counterexample to claim C5 as stated: with two occurrences of the prompt
placeholder in the template, only the FIRST is substituted — the produced
body still contains a literal prompt placeholder. -/
theorem C5_counterexample :
    substitutedSchema twoPromptSchema prefsW ("B") ("P") ("X") =
      "\x7b\"a\": \"P\", \"b\": \"\x7bprompt\x7d\"\x7d" ∧
    jsIncludes (substitutedSchema twoPromptSchema prefsW ("B") ("P") ("X")) pTok = true :=
  ⟨rfl, rfl⟩

/-- Claim C5 amended: the substitution replaces only the FIRST occurrence of
each placeholder — the prompt fragment wrapped with prefix and suffix, the
base-prompt fragment with the prefix only, the input fragment with the
suffix only, each sanitized (whitespace runs collapsed, quotes escaped) —
and when the template contains a prompt placeholder and the prompt equals
the input, the input placeholder substitutes to the empty string.  The
source chain equals the specification-style statement, and the concrete
template shows both the wrapping and the special case. -/
theorem C5_substitution_amended :
    (∀ (schema : String) (prefs : ExtensionPreferences) (bp p i : String),
       substitutedSchema schema prefs bp p i = schemaSubstitutionSpec schema prefs bp p i) ∧
    substitutedSchema threeTokSchema prefsWrap ("b  p") ("x y") ("x y") =
      "\x7b\"a\": \"P:x y;S\", \"b\": \"P:b p\", \"c\": \"\"\x7d" ∧
    substitutedSchema threeTokSchema prefsWrap ("b  p") ("x y") ("z\tw") =
      "\x7b\"a\": \"P:x y;S\", \"b\": \"P:b p\", \"c\": \"z w;S\"\x7d" :=
  ⟨fun _ _ _ _ _ => rfl, rfl, rfl⟩

/-- Counterexample to claim C6 as stated: a Model whose substituted
`inputSchema` is not valid JSON does NOT surface the failure through the
returned error field — the render call itself throws (the outcome is an
exception crossing the core boundary, not a result shape). -/
theorem C6_counterexample :
    renderOutcome ("A") ("p") ("x") (some badSchemaModel) [] false prefsW false aiResW stW =
      .error errEnd :=
  rfl

/-- Claim C6 amended: whenever the resolved Model is not the managed service
and its substituted template fails to parse, the thrown parse exception
propagates out of the call unchanged; no result shape (and hence no `error`
field) is returned. -/
theorem C6_template_error_amended :
    ∀ (bp p i : String) (override : Option Model) (models : List Model)
      (modelsLoading : Bool) (prefs : ExtensionPreferences) (canAccess : Bool)
      (aiRes : HookResult) (st : RState) (e : String),
      raycastFlag (targetModelFrom override models prefs) modelsLoading override.isSome prefs
        = false →
      jsonParse (substitutedSchema (targetModelFrom override models prefs).inputSchema
        prefs bp p i) = .error e →
      renderOutcome bp p i override models modelsLoading prefs canAccess aiRes st =
        .error e := by
  intro bp p i override models mL prefs cA aiRes st e h1 h2
  simp [renderOutcome, modelSchemaE, h1, h2]

/-- Witness for C6 (amended) at a concrete input. -/
theorem C6_template_error_amended_witness :
    renderOutcome ("B") ("q") ("y") (some badSchemaModel) [] false prefsW true aiResW stW =
      .error errEnd :=
  C6_template_error_amended ("B") ("q") ("y") (some badSchemaModel) [] false prefsW true
    aiResW stW errEnd rfl rfl

/-- Counterexample to claim C7 as stated: for a Model whose endpoint is
neither the managed-service sentinel nor contains a colon, the render does
return the terminal invalid-endpoint error — but a request IS still
attempted: the dispatch effect has no endpoint-validity check, so with
execution enabled and a non-empty prompt the fetch flag is raised. -/
theorem C7_counterexample :
    renderResult ("A") ("p") ("x") fooModel false false aiResW stW =
      { data := "", isLoading := false, error := some invalidEndpointErr, dataTag := "" } ∧
    (effectStep cfgFoo ("A") ("p") ("x") true initMState).2 = true :=
  ⟨rfl, rfl⟩

/-- Claim C7 amended: with both prompts empty the call immediately returns
the terminal `Prompt cannot be empty` error with `isLoading` false and no
HTTP request is issued (the dispatch guard requires a non-empty prompt);
with an endpoint that is neither the managed-service sentinel nor contains a
colon (registry not loading) the call immediately returns the terminal
invalid-endpoint error — but the dispatch effect does not validate the
endpoint, so a request to the invalid endpoint can still be issued. -/
theorem C7_guards_amended :
    (∀ (i : String) (m : Model) (mL cA : Bool) (aiRes : HookResult) (st : RState),
       renderResult ("") ("") i m mL cA aiRes st =
         { data := "", isLoading := false, error := some emptyPromptErr, dataTag := "" }) ∧
    (∀ (cfg : MCfg) (bp i : String) (ex : Bool) (st : MState),
       (effectStep cfg bp ("") i ex st).2 = false) ∧
    (∀ (bp p i : String) (m : Model) (cA : Bool) (aiRes : HookResult) (st : RState),
       validRaycastAIReps.contains (jsToLower m.endpoint) = false →
       jsIncludes m.endpoint colonStr = false →
       (bp.length == 0 && p.length == 0) = false →
       renderResult bp p i m false cA aiRes st =
         { data := "", isLoading := false, error := some invalidEndpointErr, dataTag := "" }) := by
  refine ⟨fun i m mL cA aiRes st => rfl, fun cfg bp i ex st => ?_, fun bp p i m cA aiRes st h1 h2 h3 => ?_⟩
  · unfold effectStep
    split
    · rfl
    · dsimp only
      simp [dispatchCond]
  · unfold renderResult
    rw [h3, h1, h2]
    simp

/-- Witness for C7 (amended) at a concrete input. -/
theorem C7_guards_amended_witness :
    renderResult ("B") ("q") ("y") fooModel false false aiResW stW =
      { data := "", isLoading := false, error := some invalidEndpointErr, dataTag := "" } :=
  C7_guards_amended.2.2 ("B") ("q") ("y") fooModel false aiResW stW rfl rfl rfl

/-- Claim C9 (code bug): the headers record always carries a spurious
`method: POST` entry (source line 111) in addition to `Content-Type` and the
at-most-one authorization entry, so the claim/spec statement that only
`Content-Type` plus the derived authorization header are sent does not hold;
the four authorization derivations themselves are as described. -/
theorem C9_method_header_bug :
    (∀ m : Model, (headersFor m).head? = some (methodKey, postVal)) ∧
    headersFor mAuthNone = [(methodKey, postVal), (ctKey, ctVal)] ∧
    headersFor mAuthApi = [(methodKey, postVal), (ctKey, ctVal), (authKey, "Api-Key k1")] ∧
    headersFor mAuthBearer = [(methodKey, postVal), (ctKey, ctVal), (authKey, "Bearer k2")] ∧
    headersFor mAuthX = [(methodKey, postVal), (ctKey, ctVal), (xApiKeyKey, "k3")] :=
  ⟨fun _ => rfl, rfl, rfl, rfl, rfl⟩

/-- Claim C10 (confirmed): the key-path walk is guarded by a truthiness test,
not a presence test — whenever the member reached at a segment is falsy
(empty string, 0, false, or null) the walk returns the caller-supplied
default even though the key exists; e.g. extracting `a` from an object whose
`a` member is `0` yields the default even though `a` is present. -/
theorem C10_falsy_as_missing :
    (∀ (cur : Jval) (k : String) (rest : List String) (d : Option String),
       cur.isNull = false → falsyOpt (jsAccessOk cur k) = true →
       getLoop cur (k :: rest) d = .ok (d.map .str)) ∧
    get (.obj [("a", .num 0 0)]) ("a") (some ("D")) = .ok (some (.str ("D"))) ∧
    (jsLookup [("a", .num 0 0)] ("a")).isSome = true := by
  refine ⟨fun cur k rest d h hf => ?_, rfl, rfl⟩
  simp only [getLoop, jsAccess, h, Bool.false_eq_true, if_false]
  cases hj : jsAccessOk cur k with
  | none => rfl
  | some u =>
    have hu : falsyV u = true := by simpa [falsyOpt, hj] using hf
    simp [hu]

/-- Witness for C10 at a concrete input: the direct loop step on a present
but falsy member returns the default. -/
theorem C10_falsy_as_missing_witness :
    getLoop (.obj [("a", .num 0 0)]) [("a")] (some ("D")) = .ok (some (.str ("D"))) :=
  C10_falsy_as_missing.1 (.obj [("a", .num 0 0)]) ("a") [] (some ("D")) rfl rfl

/-! Fixtures and lemmas for the staleness and single-dispatch claims. -/

/-- A streaming HTTP configuration with key path `text`. -/
def cfgStale : MCfg := { raycast := false, keyPath := "text", timing := "async" }

/-- A stream chunk carrying the fragment `hi` under key `text`. -/
def staleChunk : String := "data: \x7b\"text\": \"hi\"\x7d"

/-- Dispatch with tag `Apx`, resolve, change the input (current tag `Apy`),
then a chunk of the still-in-flight `Apx` invocation arrives. -/
def traceStaleData : List Ev :=
  [.effect ("A") ("p") ("x") true, .resolve true, .effect ("A") ("p") ("y") true,
   .chunk staleChunk]

/-- Dispatch with tag `Apx`, change the input (current tag `Apy`) before the
response arrives, then the response resolves. -/
def traceStaleLoading : List Ev :=
  [.effect ("A") ("p") ("x") true, .effect ("A") ("p") ("y") true, .resolve true]

/-- The then-callback never touches the ref. -/
theorem thenStep_aiRef (cfg : MCfg) (cl : Cl) (st : MState) :
    (thenStep cfg cl st).aiRef = st.aiRef := by
  unfold thenStep
  split
  · split <;> rfl
  · rfl

/-- The finally-callback never touches the ref. -/
theorem finallyStep_aiRef (cl : Cl) (st : MState) :
    (finallyStep cl st).aiRef = st.aiRef := by
  unfold finallyStep
  split <;> rfl

/-- Attaching a pair never touches the ref. -/
theorem attach_aiRef (cfg : MCfg) (cl : Cl) (st : MState) :
    (attach cfg cl st).aiRef = st.aiRef := by
  unfold attach
  split
  · rw [finallyStep_aiRef, thenStep_aiRef]
  · rfl

/-- Folded then-callbacks never touch the ref. -/
theorem foldl_thenStep_aiRef (cfg : MCfg) :
    ∀ (l : List Cl) (st : MState),
      (l.foldl (fun s cl => thenStep cfg cl s) st).aiRef = st.aiRef := by
  intro l
  induction l with
  | nil => intro st; rfl
  | cons c t ih => intro st; rw [List.foldl_cons, ih, thenStep_aiRef]

/-- Folded finally-callbacks never touch the ref. -/
theorem foldl_finallyStep_aiRef :
    ∀ (l : List Cl) (st : MState),
      (l.foldl (fun s cl => finallyStep cl s) st).aiRef = st.aiRef := by
  intro l
  induction l with
  | nil => intro st; rfl
  | cons c t ih => intro st; rw [List.foldl_cons, ih, finallyStep_aiRef]

/-- Resolution never touches the ref. -/
theorem resolveStep_aiRef (cfg : MCfg) (ok : Bool) (st : MState) :
    (resolveStep cfg ok st).aiRef = st.aiRef := by
  unfold resolveStep
  dsimp only
  rw [foldl_finallyStep_aiRef, foldl_thenStep_aiRef]

/-- A chunk never touches the ref. -/
theorem chunkStep_aiRef (kp s : String) (st : MState) :
    (chunkStep kp s st).aiRef = st.aiRef :=
  rfl

/-- Reduce a boolean `if` whose condition is false. -/
theorem iteB_false {α : Sort u} {c : Bool} (a b : α) (h : c = false) :
    (if c then a else b) = b := by simp [h]

/-- Reduce a boolean `if` whose condition is true. -/
theorem iteB_true {α : Sort u} {c : Bool} (a b : α) (h : c = true) :
    (if c then a else b) = a := by simp [h]

/-- The optional attachment never touches the ref. -/
theorem optAttach_aiRef (cfg : MCfg) (tag : String) (st : MState) :
    (optAttach cfg tag st).aiRef = st.aiRef := by
  unfold optAttach
  split
  · rfl
  · rw [attach_aiRef]

/-- The dispatch flag of one effect run, in closed form. -/
theorem effectStep_flag (cfg : MCfg) (bp p i : String) (ex : Bool) (st : MState) :
    (effectStep cfg bp p i ex st).2 =
      if cfg.raycast || !ex then false else dispatchCond p ex st := by
  unfold effectStep
  split <;> rfl

/-- The state after one effect run, in closed form. -/
theorem effectStep_fst (cfg : MCfg) (bp p i : String) (ex : Bool) (st : MState) :
    (effectStep cfg bp p i ex st).1 =
      if cfg.raycast || !ex then st
      else
        optAttach cfg (bp ++ p ++ i)
          { (if dispatchCond p ex st then { st with aiRef := some (bp ++ p ++ i) } else st) with
              isLoading := true } := by
  unfold effectStep
  split <;> rfl

/-- A dispatching effect run has execution enabled, is not the managed
service, a non-empty prompt, and no in-flight request. -/
theorem effectStep_dispatch_inv (cfg : MCfg) (bp p i : String) (ex : Bool) (st : MState)
    (h : (effectStep cfg bp p i ex st).2 = true) :
    ex = true ∧ cfg.raycast = false ∧ p ≠ "" ∧ st.aiRef = none := by
  rw [effectStep_flag] at h
  cases hg : (cfg.raycast || !ex) with
  | true => rw [iteB_true _ _ hg] at h; exact absurd h (by simp)
  | false =>
    rw [iteB_false _ _ hg] at h
    simp only [Bool.or_eq_false_iff, Bool.not_eq_false'] at hg
    have hd := h
    unfold dispatchCond at hd
    refine ⟨hg.2, hg.1, fun hp => ?_, ?_⟩
    · rw [hp] at hd; simp at hd
    · cases hn : st.aiRef with
      | none => rfl
      | some t => rw [hn] at hd; simp at hd

/-- With an in-flight request the effect reuses it: the ref is unchanged and
no new request is issued. -/
theorem effectStep_reuse (cfg : MCfg) (bp p i : String) (ex : Bool) (st : MState)
    (t : String) (h : st.aiRef = some t) :
    (effectStep cfg bp p i ex st).1.aiRef = some t ∧
      (effectStep cfg bp p i ex st).2 = false := by
  have hd : dispatchCond p ex st = false := by simp [dispatchCond, h]
  cases hg : (cfg.raycast || !ex) with
  | true =>
    rw [effectStep_fst, effectStep_flag, iteB_true _ _ hg, iteB_true _ _ hg]
    exact ⟨h, rfl⟩
  | false =>
    rw [effectStep_fst, effectStep_flag, iteB_false _ _ hg, iteB_false _ _ hg,
      iteB_false _ _ hd, optAttach_aiRef]
    exact ⟨h, hd⟩

/-- A dispatching effect run records the dispatch tag in the ref. -/
theorem effectStep_dispatch_aiRef (cfg : MCfg) (bp p i : String) (ex : Bool) (st : MState)
    (h : (effectStep cfg bp p i ex st).2 = true) :
    (effectStep cfg bp p i ex st).1.aiRef = some (bp ++ p ++ i) := by
  have hflag := effectStep_flag cfg bp p i ex st
  rw [h] at hflag
  cases hg : (cfg.raycast || !ex) with
  | true => rw [iteB_true _ _ hg] at hflag; exact absurd hflag.symm (by simp)
  | false =>
    have hd : dispatchCond p ex st = true := by
      rw [iteB_false _ _ hg] at hflag; exact hflag.symm
    rw [effectStep_fst, iteB_false _ _ hg, iteB_true _ _ hd, optAttach_aiRef]

/-- A non-stop event that issues no request leaves the ref unchanged. -/
theorem step_no_dispatch_aiRef (cfg : MCfg) (st : MState) (e : Ev)
    (he : isStopEv e = false) (h : (step cfg st e).2 = false) :
    (step cfg st e).1.aiRef = st.aiRef := by
  cases e with
  | effect bp p i ex =>
    have h' : (effectStep cfg bp p i ex st).2 = false := h
    rw [effectStep_flag] at h'
    show (effectStep cfg bp p i ex st).1.aiRef = st.aiRef
    cases hg : (cfg.raycast || !ex) with
    | true => rw [effectStep_fst, iteB_true _ _ hg]
    | false =>
      have hd : dispatchCond p ex st = false := by
        rw [iteB_false _ _ hg] at h'; exact h'
      rw [effectStep_fst, iteB_false _ _ hg, iteB_false _ _ hd, optAttach_aiRef]
  | resolve ok => exact resolveStep_aiRef cfg ok st
  | chunk s => rfl
  | stop => exact absurd he (by simp [isStopEv])

/-- A non-stop event seen while a request is in flight issues nothing and
keeps the ref. -/
theorem step_inflight (cfg : MCfg) (st : MState) (e : Ev) (t : String)
    (he : isStopEv e = false) (h : st.aiRef = some t) :
    (step cfg st e).1.aiRef = some t ∧ (step cfg st e).2 = false := by
  cases e with
  | effect bp p i ex => exact effectStep_reuse cfg bp p i ex st t h
  | resolve ok => exact ⟨(resolveStep_aiRef cfg ok st).trans h, rfl⟩
  | chunk s => exact ⟨h, rfl⟩
  | stop => exact absurd he (by simp [isStopEv])

/-- With a request in flight and no stop event, a whole trace issues no
request and keeps the ref. -/
theorem run_inflight (cfg : MCfg) :
    ∀ (evs : List Ev) (st : MState) (t : String),
      evs.all (fun e => !isStopEv e) = true → st.aiRef = some t →
      (run cfg st evs).2 = 0 ∧ (run cfg st evs).1.aiRef = some t := by
  intro evs
  induction evs with
  | nil => intro st t _ h; exact ⟨rfl, h⟩
  | cons e rest ih =>
    intro st t hall h
    simp only [List.all_cons, Bool.and_eq_true, Bool.not_eq_true'] at hall
    have hs := step_inflight cfg st e t hall.1 h
    have hr := ih (step cfg st e).1 t (by simp only [List.all_eq_true] at hall ⊢; exact fun x hx => hall.2 x hx) hs.1
    unfold run
    dsimp only
    rw [hs.2, hr.1, hr.2]
    exact ⟨rfl, rfl⟩

/-- Without a stop event, any trace from any state issues at most one
request. -/
theorem run_le_one (cfg : MCfg) :
    ∀ (evs : List Ev) (st : MState),
      evs.all (fun e => !isStopEv e) = true → (run cfg st evs).2 ≤ 1 := by
  intro evs
  induction evs with
  | nil => intro st _; exact Nat.zero_le 1
  | cons e rest ih =>
    intro st hall
    simp only [List.all_cons, Bool.and_eq_true, Bool.not_eq_true'] at hall
    have hallr : rest.all (fun e => !isStopEv e) = true := by
      simp only [List.all_eq_true] at hall ⊢; exact fun x hx => hall.2 x hx
    unfold run
    dsimp only
    cases hd : (step cfg st e).2 with
    | false =>
      rw [if_neg (by simp)]
      simpa using ih (step cfg st e).1 hallr
    | true =>
      rw [if_pos rfl]
      cases e with
      | effect bp p i ex =>
        have hds := effectStep_dispatch_aiRef cfg bp p i ex st (by exact hd)
        have hz := (run_inflight cfg rest (step cfg st (.effect bp p i ex)).1
          (bp ++ p ++ i) hallr (by exact hds)).1
        omega
      | resolve ok => exact absurd hd (by simp [step])
      | chunk s => exact absurd hd (by simp [step])
      | stop => exact absurd hall.1 (by simp [isStopEv])

/-! The remaining claim theorems. -/

/-- Claim C1 (code bug): the staleness guard compares the dispatch-time tag
with the basePrompt/prompt/input CLOSED OVER by the effect run that attached
the handler, not with the caller's current inputs.  For the handler attached
by the dispatching effect run itself those are equal by construction, so the
guard is vacuous there: in `traceStaleData` the inputs change from tag `Apx`
to tag `Apy` while the `Apx` fetch is in flight, and the subsequently
arriving chunk still rewrites `data` to `hi` (the spec demands it never
does).  The connection close (`forceStop`) is requested by the
later-attached finally, whose closure does mismatch.  In
`traceStaleLoading` the finally attached by the dispatching run likewise
passes its vacuous tag check and sets `isLoading` to false for a superseded
invocation (the spec demands it must not). -/
theorem C1_stale_chunk_updates_data :
    ((run cfgStale initMState traceStaleData).1.data = "hi" ∧
     (run cfgStale initMState traceStaleData).1.aiRef = some ("Apx") ∧
     (run cfgStale initMState traceStaleData).1.dataTag = "Apy" ∧
     (run cfgStale initMState traceStaleData).1.closed = true ∧
     (run cfgStale initMState traceStaleData).1.isLoading = true) ∧
    ((run cfgStale initMState traceStaleLoading).1.isLoading = false ∧
     (run cfgStale initMState traceStaleLoading).1.closed = true) :=
  ⟨⟨rfl, rfl, rfl, rfl, rfl⟩, rfl, rfl⟩

/-- Claim C8 (confirmed): a request is dispatched only when execution is
enabled, the resolved Model is not the managed service, the prompt is
non-empty and no request is in flight; an effect run that finds an in-flight
request reuses it (same ref, no new request); and, absent an explicit stop,
any event trace issues no request while one is in flight and at most one
request overall — hence at most one live request per invocation tag. -/
theorem C8_single_dispatch :
    (∀ (cfg : MCfg) (bp p i : String) (ex : Bool) (st : MState),
       (effectStep cfg bp p i ex st).2 = true →
       ex = true ∧ cfg.raycast = false ∧ p ≠ "" ∧ st.aiRef = none) ∧
    (∀ (cfg : MCfg) (bp p i : String) (ex : Bool) (st : MState) (t : String),
       st.aiRef = some t →
       (effectStep cfg bp p i ex st).1.aiRef = some t ∧
         (effectStep cfg bp p i ex st).2 = false) ∧
    (∀ (cfg : MCfg) (evs : List Ev) (st : MState) (t : String),
       evs.all (fun e => !isStopEv e) = true → st.aiRef = some t →
       (run cfg st evs).2 = 0) ∧
    (∀ (cfg : MCfg) (evs : List Ev) (st : MState),
       evs.all (fun e => !isStopEv e) = true → (run cfg st evs).2 ≤ 1) :=
  ⟨effectStep_dispatch_inv,
   fun cfg bp p i ex st t h => effectStep_reuse cfg bp p i ex st t h,
   fun cfg evs st t hall h => (run_inflight cfg evs st t hall h).1,
   fun cfg evs st hall => run_le_one cfg evs st hall⟩

/-- Witness for C8 at concrete inputs: an in-flight request is reused by a
re-render, and a stop-free trace from an in-flight state issues nothing. -/
theorem C8_single_dispatch_witness :
    ((effectStep cfgStale ("A") ("p") ("x") true
        { initMState with aiRef := some ("t") }).2 = false) ∧
    (run cfgStale { initMState with aiRef := some ("t") }
        [.effect ("A") ("p") ("x") true, .resolve true]).2 = 0 :=
  ⟨(C8_single_dispatch.2.1 cfgStale ("A") ("p") ("x") true
      { initMState with aiRef := some ("t") } ("t") rfl).2,
   C8_single_dispatch.2.2.1 cfgStale
     [.effect ("A") ("p") ("x") true, .resolve true]
     { initMState with aiRef := some ("t") } ("t") rfl rfl⟩

end PromptLab
